import Mathlib

/-!
Verification development for the chaos_systems repository: a shallow
embedding of the strange-attractor catalog (src/attractors.ts) and the
particle trail engine (the ParticleSystem class), together with theorems
settling the specification claims about them.

Modelling conventions: JavaScript numbers are modelled by `JsNum`, a
rational value tagged finite, or one of the non-finite values NaN,
Infinity, -Infinity; arithmetic on `JsNum` follows the IEEE rules for
the sign/propagation of non-finite values while idealising finite
arithmetic as exact rational arithmetic (no rounding or overflow).
`Math.random()` is modelled by an explicit stream `rng : ℕ → ℚ` with a
cursor `rngPos` recording how many draws have been consumed, stored in
the engine state.  Float32Array buffers are modelled as total functions
from indices, zero-initialised, exactly as JavaScript typed arrays are.
-/

inductive JsNum where
  | fin (q : ℚ)
  | nan
  | inf
  | ninf
deriving DecidableEq

namespace JsNum

/-- Model of the JavaScript global `isFinite`. -/
def isFinite : JsNum → Bool
  | fin _ => true
  | _ => false

def neg : JsNum → JsNum
  | fin q => fin (-q)
  | nan => nan
  | inf => ninf
  | ninf => inf

def add : JsNum → JsNum → JsNum
  | nan, _ => nan
  | _, nan => nan
  | inf, ninf => nan
  | ninf, inf => nan
  | inf, _ => inf
  | _, inf => inf
  | ninf, _ => ninf
  | _, ninf => ninf
  | fin a, fin b => fin (a + b)

def mul : JsNum → JsNum → JsNum
  | nan, _ => nan
  | _, nan => nan
  | inf, inf => inf
  | inf, ninf => ninf
  | ninf, inf => ninf
  | ninf, ninf => inf
  | inf, fin b => if 0 < b then inf else if b < 0 then ninf else nan
  | fin a, inf => if 0 < a then inf else if a < 0 then ninf else nan
  | ninf, fin b => if 0 < b then ninf else if b < 0 then inf else nan
  | fin a, ninf => if 0 < a then ninf else if a < 0 then inf else nan
  | fin a, fin b => fin (a * b)

def sub (a b : JsNum) : JsNum := add a (neg b)

def div : JsNum → JsNum → JsNum
  | nan, _ => nan
  | _, nan => nan
  | inf, inf => nan
  | inf, ninf => nan
  | ninf, inf => nan
  | ninf, ninf => nan
  | inf, fin b => if 0 ≤ b then inf else ninf
  | ninf, fin b => if 0 ≤ b then ninf else inf
  | fin _, inf => fin 0
  | fin _, ninf => fin 0
  | fin a, fin b =>
      if b = 0 then (if 0 < a then inf else if a < 0 then ninf else nan)
      else fin (a / b)

/-- Model of the narrowing performed by storing a number into a
Float32Array: a finite value whose magnitude reaches the float32
round-to-infinity boundary 2^128 - 2^103 overflows to the infinity of its
sign; smaller finite values are kept exactly (float32 precision rounding
within range is not modelled); NaN and the infinities store unchanged.
In particular a finite double above float32 range passes `isFinite` but is
stored as Infinity. -/
def toFloat32 : JsNum → JsNum
  | fin q =>
      if q ≤ -(2 ^ 128 - 2 ^ 103) then ninf
      else if 2 ^ 128 - 2 ^ 103 ≤ q then inf
      else fin q
  | nan => nan
  | inf => inf
  | ninf => ninf

instance : Add JsNum := ⟨add⟩
instance : Mul JsNum := ⟨mul⟩
instance : Neg JsNum := ⟨neg⟩
instance : Sub JsNum := ⟨sub⟩
instance : Div JsNum := ⟨div⟩
instance (n : ℕ) : OfNat JsNum n := ⟨fin n⟩

end JsNum

/-- Model of THREE.Color: an RGB triple of numbers. -/
structure Color where
  r : ℚ
  g : ℚ
  b : ℚ
deriving DecidableEq

/-- Model of THREE.Color.lerpColors: this = c1 + (c2 - c1) * alpha componentwise. -/
def Color.lerpColors (c1 c2 : Color) (alpha : ℚ) : Color :=
  ⟨c1.r + (c2.r - c1.r) * alpha,
   c1.g + (c2.g - c1.g) * alpha,
   c1.b + (c2.b - c1.b) * alpha⟩

/-- Model of the AttractorParams interface: an open-ended mapping from
parameter name to number, as a key/value list. -/
def AttractorParams : Type := List (String × JsNum)

/-- Reading a property of an AttractorParams object; a missing key reads as
JavaScript `undefined`, which behaves as NaN in the arithmetic that consumes
it, so it is mapped to NaN here. -/
def AttractorParams.get (p : AttractorParams) (k : String) : JsNum :=
  match List.lookup k p with
  | some v => v
  | none => JsNum.nan

/-- Model of the Attractor interface of src/attractors.ts (the purely
rendering-side fields name/description/wikipediaUrl/equation/cameraPosition
are omitted apart from name, which identifies the entry). -/
structure Attractor where
  name : String
  params : AttractorParams
  paramRanges : List (String × (ℚ × ℚ × ℚ))
  dt : ℚ
  scale : ℚ
  step : JsNum → JsNum → JsNum → AttractorParams → JsNum → JsNum × JsNum × JsNum

/-- The lorenz entry of src/attractors.ts. -/
def lorenz : Attractor where
  name := "Lorenz"
  params := [("sigma", .fin 10), ("rho", .fin 28), ("beta", .fin (8 / 3))]
  paramRanges := [("sigma", (0, 20, 1/10)), ("rho", (0, 50, 1/10)), ("beta", (0, 10, 1/100))]
  dt := 5 / 1000
  scale := 3 / 2
  step := fun x y z p dt =>
    let dx := p.get "sigma" * (y - x)
    let dy := x * (p.get "rho" - z) - y
    let dz := x * y - p.get "beta" * z
    (x + dx * dt, y + dy * dt, z + dz * dt)

/-- Model of Math.sin as applied to a JsNum: NaN and the infinities map to
NaN, finite inputs go through the ambient real-sine model `sine`. -/
def jsSin (sine : ℚ → ℚ) : JsNum → JsNum
  | .fin q => .fin (sine q)
  | _ => .nan

/-- The thomas entry of src/attractors.ts, parameterised by the model of
Math.sin on finite inputs. -/
def thomas (sine : ℚ → ℚ) : Attractor where
  name := "Thomas"
  params := [("b", .fin (208186 / 1000000))]
  paramRanges := [("b", (1/10, 3/10, 1/1000))]
  dt := 4 / 100
  scale := 8
  step := fun x y z p dt =>
    let dx := jsSin sine y - p.get "b" * x
    let dy := jsSin sine z - p.get "b" * y
    let dz := jsSin sine x - p.get "b" * z
    (x + dx * dt, y + dy * dt, z + dz * dt)

/-- The dadras entry of src/attractors.ts. -/
def dadras : Attractor where
  name := "Dadras"
  params := [("a", .fin 3), ("b", .fin (27/10)), ("c", .fin (17/10)), ("d", .fin 2), ("e", .fin 9)]
  paramRanges := [("a", (1, 5, 1/10)), ("b", (1, 5, 1/10)), ("c", (1/2, 3, 1/10)),
    ("d", (1, 4, 1/10)), ("e", (5, 15, 1/10))]
  dt := 4 / 1000
  scale := 2
  step := fun x y z p dt =>
    let dx := y - p.get "a" * x + p.get "b" * y * z
    let dy := p.get "c" * y - x * z + z
    let dz := p.get "d" * x * y - p.get "e" * z
    (x + dx * dt, y + dy * dt, z + dz * dt)

/-- The rossler entry of src/attractors.ts. -/
def rossler : Attractor where
  name := "Rössler"
  params := [("a", .fin (2/10)), ("b", .fin (2/10)), ("c", .fin (57/10))]
  paramRanges := [("a", (1/10, 1/2, 1/100)), ("b", (1/10, 1/2, 1/100)), ("c", (3, 10, 1/10))]
  dt := 1 / 100
  scale := 5 / 2
  step := fun x y z p dt =>
    let dx := -y - z
    let dy := x + p.get "a" * y
    let dz := p.get "b" + z * (x - p.get "c")
    (x + dx * dt, y + dy * dt, z + dz * dt)

/-- The aizawa entry of src/attractors.ts. -/
def aizawa : Attractor where
  name := "Aizawa"
  params := [("a", .fin (95/100)), ("b", .fin (7/10)), ("c", .fin (6/10)),
    ("d", .fin (35/10)), ("e", .fin (25/100)), ("f", .fin (1/10))]
  paramRanges := [("a", (1/2, 3/2, 1/100)), ("b", (3/10, 1, 1/100)), ("c", (3/10, 1, 1/100)),
    ("d", (2, 5, 1/10)), ("e", (1/10, 1/2, 1/100)), ("f", (5/100, 3/10, 1/100))]
  dt := 5 / 1000
  scale := 10
  step := fun x y z p dt =>
    let dx := (z - p.get "b") * x - p.get "d" * y
    let dy := p.get "d" * x + (z - p.get "b") * y
    let dz := p.get "c" + p.get "a" * z - (z * z * z) / 3
      - (x * x + y * y) * (1 + p.get "e" * z) + p.get "f" * z * x * x * x
    (x + dx * dt, y + dy * dt, z + dz * dt)

/-- The chen entry of src/attractors.ts. -/
def chen : Attractor where
  name := "Chen"
  params := [("a", .fin 40), ("b", .fin 3), ("c", .fin 28)]
  paramRanges := [("a", (30, 50, 1/2)), ("b", (1, 5, 1/10)), ("c", (20, 35, 1/2))]
  dt := 2 / 1000
  scale := 6 / 5
  step := fun x y z p dt =>
    let dx := p.get "a" * (y - x)
    let dy := (p.get "c" - p.get "a") * x - x * z + p.get "c" * y
    let dz := x * y - p.get "b" * z
    (x + dx * dt, y + dy * dt, z + dz * dt)

/-- The halvorsen entry of src/attractors.ts. -/
def halvorsen : Attractor where
  name := "Halvorsen"
  params := [("a", .fin (189/100))]
  paramRanges := [("a", (1, 3, 1/100))]
  dt := 5 / 1000
  scale := 4
  step := fun x y z p dt =>
    let dx := (-(p.get "a")) * x - 4 * y - 4 * z - y * y
    let dy := (-(p.get "a")) * y - 4 * z - 4 * x - z * z
    let dz := (-(p.get "a")) * z - 4 * x - 4 * y - x * x
    (x + dx * dt, y + dy * dt, z + dz * dt)

/-- The sprott entry of src/attractors.ts. -/
def sprott : Attractor where
  name := "Sprott"
  params := [("a", .fin (207/100)), ("b", .fin (179/100))]
  paramRanges := [("a", (3/2, 3, 1/100)), ("b", (1, 5/2, 1/100))]
  dt := 2 / 100
  scale := 5
  step := fun x y z p dt =>
    let dx := y + p.get "a" * x * y + x * z
    let dy := 1 - p.get "b" * x * x + y * z
    let dz := x - x * x - y * y
    (x + dx * dt, y + dy * dt, z + dz * dt)

/-- The `attractors` collection object of src/attractors.ts: keys in
declaration order. -/
def attractors (sine : ℚ → ℚ) : List (String × Attractor) :=
  [("lorenz", lorenz), ("thomas", thomas sine), ("dadras", dadras), ("rossler", rossler),
   ("aizawa", aizawa), ("chen", chen), ("halvorsen", halvorsen), ("sprott", sprott)]

/-- The `attractorNames` export: Object.keys of the collection. -/
def attractorNames (sine : ℚ → ℚ) : List String := (attractors sine).map Prod.fst

/-- A value produced by the JavaScript property access attractors[key]:
either an own property (a Field Descriptor), a member inherited from
Object.prototype (a defined value that is not a Field Descriptor, such as
the toString function), or undefined. -/
inductive PropValue where
  | descriptor (attractor : Attractor)
  | inherited (name : String)
  | undef

/-- The property names every plain JavaScript object literal inherits from
Object.prototype. -/
def objectPrototypeKeys : List String :=
  ["constructor", "hasOwnProperty", "isPrototypeOf", "propertyIsEnumerable",
   "toLocaleString", "toString", "valueOf", "__proto__", "__defineGetter__",
   "__defineSetter__", "__lookupGetter__", "__lookupSetter__"]

/-- Model of the property access `attractors[key]`: an own key (one of the
eight declared entries) yields its descriptor; on a miss the prototype
chain is consulted, so a key naming an Object.prototype member yields that
inherited non-descriptor value; any other key yields undefined. -/
def getAttractor (sine : ℚ → ℚ) (key : String) : PropValue :=
  match List.lookup key (attractors sine) with
  | some attractor => PropValue.descriptor attractor
  | none =>
      if key ∈ objectPrototypeKeys then PropValue.inherited key else PropValue.undef

/-- Model of the ParticleSystemOptions interface. -/
structure ParticleSystemOptions where
  particleCount : ℕ
  trailLength : ℕ
  colorStart : Color
  colorEnd : Color

/-- Model of the ParticleSystem class state.  `trailPositions` maps a ring
slot index to its Float32Array (flat index ↦ value); `positions`, `colors`
and `sizes` are the renderable buffers; `rng`/`rngPos` model the ambient
Math.random stream and how many draws have been consumed. -/
structure ParticleSystem where
  particleCount : ℕ
  trailLength : ℕ
  colorStart : Color
  colorEnd : Color
  currentAttractor : Attractor
  currentParams : AttractorParams
  trailPositions : ℕ → ℕ → JsNum
  trailIndex : ℕ
  positions : ℕ → JsNum
  colors : ℕ → ℚ
  sizes : ℕ → ℚ
  rng : ℕ → ℚ
  rngPos : ℕ

namespace ParticleSystem

/-- Model of ParticleSystem.updateBuffers: for every particle i < n and
slot t < trailLength the loop writes buffer cell (i*trailLength+t)*3+k; the
functional form recovers (i, t, k) from the flat index, which covers exactly
the same writes. -/
def updateBuffers (s : ParticleSystem) : ParticleSystem :=
  let scale := s.currentAttractor.scale
  let n := s.particleCount
  let L := s.trailLength
  { s with
    positions := fun bufferIdx =>
      let k := bufferIdx % 3
      let point := bufferIdx / 3
      let i := point / L
      let t := point % L
      if L ≠ 0 ∧ i < n then
        s.trailPositions ((s.trailIndex + t) % L) (i * 3 + k) * JsNum.fin scale
      else s.positions bufferIdx
    colors := fun bufferIdx =>
      let k := bufferIdx % 3
      let point := bufferIdx / 3
      let i := point / L
      let t := point % L
      if L ≠ 0 ∧ i < n then
        let trailFactor : ℚ := (t : ℚ) / (L : ℚ)
        let color := Color.lerpColors s.colorEnd s.colorStart trailFactor
        if k = 0 then color.r else if k = 1 then color.g else color.b
      else s.colors bufferIdx
    sizes := fun sizeIdx =>
      let i := sizeIdx / L
      let t := sizeIdx % L
      if L ≠ 0 ∧ i < n then (5/2) * (1 - ((t : ℚ) / (L : ℚ)) * (7/10))
      else s.sizes sizeIdx }

/-- Model of ParticleSystem.initializeParticles: per particle i three draws
from Math.random (stream indices rngPos+3i, +1, +2) build one position, the
third coordinate offset by 25; every ring slot of particle i is set to that
same position, then the renderable buffers are rebuilt.  The Float32Array
narrowing is not applied to the seed store: with Math.random in [0, 1) and
every catalog displayScale at most 10, a seeded coordinate has magnitude at
most 35, far inside float32 range, so the narrowing is the identity on this
path. -/
def initializeParticles (s : ParticleSystem) : ParticleSystem :=
  let scale := s.currentAttractor.scale
  let n := s.particleCount
  let L := s.trailLength
  let seed : ℕ → ℚ := fun j =>
    let i := j / 3
    let c := j % 3
    (s.rng (s.rngPos + 3 * i + c) - 1/2) * 2 * scale + (if c = 2 then 25 else 0)
  updateBuffers
    { s with
      trailPositions := fun t j =>
        if t < L ∧ j < 3 * n then JsNum.fin (seed j) else s.trailPositions t j
      rngPos := s.rngPos + 3 * n }

/-- Model of the ParticleSystem constructor: the class fields are set from
the options and the attractor (the parameter snapshot is a copy of the
attractor's defaults), all typed-array buffers start zeroed, trailIndex
starts at 0, and initializeParticles seeds the population.  The source
performs no validation of the sizes. -/
def construct (attractor : Attractor) (options : ParticleSystemOptions)
    (rng : ℕ → ℚ) (rngPos : ℕ) : ParticleSystem :=
  initializeParticles
    { particleCount := options.particleCount
      trailLength := options.trailLength
      colorStart := options.colorStart
      colorEnd := options.colorEnd
      currentAttractor := attractor
      currentParams := attractor.params
      trailPositions := fun _ _ => JsNum.fin 0
      trailIndex := 0
      positions := fun _ => JsNum.fin 0
      colors := fun _ => 0
      sizes := fun _ => 0
      rng := rng
      rngPos := rngPos }

/-- One iteration of the particle loop of ParticleSystem.update: reads
particle i's current position from the ring slot at trailIndex, steps it,
and writes either the step result (when all three coordinates are finite)
or a freshly sampled random position (three further Math.random draws) into
the slot nextIndex.  The isFinite guard tests the raw double-precision step
result, but the write lands in a Float32Array, so every written value is
narrowed by toFloat32 — a finite step result above float32 range passes the
guard yet is stored as Infinity.  The state threaded through is the ring
being written plus the Math.random cursor. -/
def processParticle (s : ParticleSystem) (dt : ℚ) (nextIndex : ℕ) (i : ℕ)
    (st : (ℕ → ℕ → JsNum) × ℕ) : (ℕ → ℕ → JsNum) × ℕ :=
  let x := s.trailPositions s.trailIndex (i * 3)
  let y := s.trailPositions s.trailIndex (i * 3 + 1)
  let z := s.trailPositions s.trailIndex (i * 3 + 2)
  let r := s.currentAttractor.step x y z s.currentParams (JsNum.fin dt)
  let write3 : JsNum → JsNum → JsNum → (ℕ → ℕ → JsNum) :=
    fun a b c t j =>
      if t = nextIndex then
        if j = i * 3 then a
        else if j = i * 3 + 1 then b
        else if j = i * 3 + 2 then c
        else st.1 t j
      else st.1 t j
  if r.1.isFinite = true ∧ r.2.1.isFinite = true ∧ r.2.2.isFinite = true then
    (write3 r.1.toFloat32 r.2.1.toFloat32 r.2.2.toFloat32, st.2)
  else
    let scale := s.currentAttractor.scale
    (write3 (JsNum.fin ((s.rng st.2 - 1/2) * 2 * scale)).toFloat32
            (JsNum.fin ((s.rng (st.2 + 1) - 1/2) * 2 * scale)).toFloat32
            (JsNum.fin ((s.rng (st.2 + 2) - 1/2) * 2 * scale + 25)).toFloat32,
     st.2 + 3)

/-- The particle loop of ParticleSystem.update over particles 0..m-1 in
ascending order. -/
def updateParticles (s : ParticleSystem) (dt : ℚ) (nextIndex : ℕ) :
    ℕ → (ℕ → ℕ → JsNum) × ℕ → (ℕ → ℕ → JsNum) × ℕ
  | 0, st => st
  | m + 1, st => processParticle s dt nextIndex m (updateParticles s dt nextIndex m st)

/-- Model of ParticleSystem.update: effective dt is attractor.dt * speed,
the write target is the slot trailLength - 1 ahead of trailIndex (mod
trailLength), all particles are stepped, trailIndex moves to that slot, and
the renderable buffers are rebuilt. -/
def update (speed : ℚ) (s : ParticleSystem) : ParticleSystem :=
  let dt := s.currentAttractor.dt * speed
  let nextIndex := (s.trailIndex + s.trailLength - 1) % s.trailLength
  let st := updateParticles s dt nextIndex s.particleCount (s.trailPositions, s.rngPos)
  updateBuffers
    { s with trailPositions := st.1, rngPos := st.2, trailIndex := nextIndex }

/-- Model of ParticleSystem.setAttractor: replaces the attractor, copies its
default parameters, and reseeds the whole population; trailIndex is not
touched. -/
def setAttractor (attractor : Attractor) (s : ParticleSystem) : ParticleSystem :=
  initializeParticles
    { s with currentAttractor := attractor, currentParams := attractor.params }

/-- Model of ParticleSystem.setParams: replaces the working parameter
snapshot by a copy; nothing else changes. -/
def setParams (params : AttractorParams) (s : ParticleSystem) : ParticleSystem :=
  { s with currentParams := params }

/-- Model of ParticleSystem.setColors. -/
def setColors (start finish : Color) (s : ParticleSystem) : ParticleSystem :=
  { s with colorStart := start, colorEnd := finish }

/-- Model of ParticleSystem.getParticleCount. -/
def getParticleCount (s : ParticleSystem) : ℕ :=
  s.particleCount * s.trailLength

/-- Model of ParticleSystem.dispose: the source releases the geometry and
material handles owned by the render library; no engine field is modified
and no disposed flag is recorded, so on the engine state it is the
identity. -/
def dispose (s : ParticleSystem) : ParticleSystem := s

end ParticleSystem

/-- The error taxonomy named by the specification (none of these is defined
or raised anywhere in the source). -/
inductive EngineError where
  | invalidConfiguration
  | useAfterDispose
  | unknownField
deriving DecidableEq

/-- The constructor viewed as a fallible operation: the source constructor
contains no validation of particleCount or trailLength and no throw
statement, so construction always succeeds. -/
def ParticleSystem.constructE (attractor : Attractor) (options : ParticleSystemOptions)
    (rng : ℕ → ℚ) (rngPos : ℕ) : Except EngineError ParticleSystem :=
  Except.ok (ParticleSystem.construct attractor options rng rngPos)

/-- ParticleSystem.update viewed as a fallible operation: the source checks
no disposed flag and has no failure path. -/
def ParticleSystem.updateE (speed : ℚ) (s : ParticleSystem) :
    Except EngineError ParticleSystem :=
  Except.ok (ParticleSystem.update speed s)

/-- ParticleSystem.getParticleCount viewed as a fallible operation: the
source checks no disposed flag and has no failure path. -/
def ParticleSystem.getParticleCountE (s : ParticleSystem) : Except EngineError ℕ :=
  Except.ok (ParticleSystem.getParticleCount s)

/-- ParticleSystem.setAttractor viewed as a fallible operation: the source
checks no disposed flag and has no failure path. -/
def ParticleSystem.setAttractorE (attractor : Attractor) (s : ParticleSystem) :
    Except EngineError ParticleSystem :=
  Except.ok (ParticleSystem.setAttractor attractor s)

/-- Engine states reachable through the public operations, from any
construction (any attractor, any sizes, any Math.random stream) through any
sequence of update/setAttractor/setParams/setColors/dispose calls with
arbitrary arguments. -/
inductive Reachable : ParticleSystem → Prop where
  | construct (attractor options rng rngPos) :
      Reachable (ParticleSystem.construct attractor options rng rngPos)
  | update (speed s) : Reachable s → Reachable (ParticleSystem.update speed s)
  | setAttractor (attractor s) : Reachable s → Reachable (ParticleSystem.setAttractor attractor s)
  | setParams (params s) : Reachable s → Reachable (ParticleSystem.setParams params s)
  | setColors (start finish s) : Reachable s → Reachable (ParticleSystem.setColors start finish s)
  | dispose (s) : Reachable s → Reachable (ParticleSystem.dispose s)

/-- The step result read by the loop iteration for particle i. -/
def ParticleSystem.stepResult (s : ParticleSystem) (dt : ℚ) (i : ℕ) : JsNum × JsNum × JsNum :=
  s.currentAttractor.step (s.trailPositions s.trailIndex (i * 3))
    (s.trailPositions s.trailIndex (i * 3 + 1)) (s.trailPositions s.trailIndex (i * 3 + 2))
    s.currentParams (JsNum.fin dt)

/-- The finiteness check of ParticleSystem.update for particle i. -/
def ParticleSystem.stepFinite (s : ParticleSystem) (dt : ℚ) (i : ℕ) : Prop :=
  (s.stepResult dt i).1.isFinite = true ∧ (s.stepResult dt i).2.1.isFinite = true ∧
    (s.stepResult dt i).2.2.isFinite = true

instance (s : ParticleSystem) (dt : ℚ) (i : ℕ) : Decidable (s.stepFinite dt i) := by
  unfold ParticleSystem.stepFinite; infer_instance

/-- The seeded position coordinate of initializeParticles for flat ring
index j: particle j / 3, component j % 3. -/
def ParticleSystem.seedCoord (s : ParticleSystem) (j : ℕ) : ℚ :=
  (s.rng (s.rngPos + 3 * (j / 3) + j % 3) - 1/2) * 2 * s.currentAttractor.scale +
    (if j % 3 = 2 then 25 else 0)

/-- Model of the Math.sin argument used in concrete tests (its value is
irrelevant to the tested entries). -/
def sineZero : ℚ → ℚ := fun _ => 0

/-- The concrete scenario of the specification's testable property: the
lorenz field with one particle and trail length one, Math.random pinned to
5/6 so the seeded position is (1, 1, 26). -/
def S4 : ParticleSystem :=
  ParticleSystem.construct lorenz ⟨1, 1, ⟨0, 0, 0⟩, ⟨1, 1, 1⟩⟩ (fun _ => 5/6) 0

/-- A test field whose step function shifts x by one each step, making the
newest ring entry recognisable. -/
def shiftAttractor : Attractor where
  name := "shift"
  params := []
  paramRanges := []
  dt := 1
  scale := 1
  step := fun x y z _ _ => (x + 1, y, z)

/-- A concrete engine with one particle and a two-slot trail on the
shifting field, Math.random pinned to 1/2 so the seeded position is
(0, 0, 25). -/
def S2c : ParticleSystem :=
  ParticleSystem.construct shiftAttractor ⟨1, 2, ⟨1, 1, 1⟩, ⟨0, 0, 0⟩⟩ (fun _ => 1/2) 0

/-- A concrete engine for the dispose scenario. -/
def SD : ParticleSystem :=
  ParticleSystem.construct lorenz ⟨2, 2, ⟨0, 0, 0⟩, ⟨1, 1, 1⟩⟩ (fun _ => 1/2) 0

/-- The parameter snapshot of the overflow scenario: the lorenz defaults
with rho raised to 1e300, a value outside the advisory UI range that
setParams nevertheless accepts unvalidated. -/
def overflowParams : AttractorParams :=
  [("sigma", .fin 10), ("rho", .fin (10 ^ 300)), ("beta", .fin (8 / 3))]

/-- The lorenz equations of the specification's catalog table, as one
explicit Euler step. -/
def specLorenzStep (sigma rho beta x y z dt : ℚ) : ℚ × ℚ × ℚ :=
  (x + sigma * (y - x) * dt, y + (x * (rho - z) - y) * dt, z + (x * y - beta * z) * dt)

/-- The thomas equations of the specification's catalog table. -/
def specThomasStep (sine : ℚ → ℚ) (b x y z dt : ℚ) : ℚ × ℚ × ℚ :=
  (x + (sine y - b * x) * dt, y + (sine z - b * y) * dt, z + (sine x - b * z) * dt)

/-- The dadras equations of the specification's catalog table. -/
def specDadrasStep (a b c d e x y z dt : ℚ) : ℚ × ℚ × ℚ :=
  (x + (y - a * x + b * y * z) * dt, y + (c * y - x * z + z) * dt, z + (d * x * y - e * z) * dt)

/-- The rossler equations of the specification's catalog table. -/
def specRosslerStep (a b c x y z dt : ℚ) : ℚ × ℚ × ℚ :=
  (x + (-y - z) * dt, y + (x + a * y) * dt, z + (b + z * (x - c)) * dt)

/-- The aizawa equations of the specification's catalog table. -/
def specAizawaStep (a b c d e f x y z dt : ℚ) : ℚ × ℚ × ℚ :=
  (x + ((z - b) * x - d * y) * dt, y + (d * x + (z - b) * y) * dt,
   z + (c + a * z - z ^ 3 / 3 - (x ^ 2 + y ^ 2) * (1 + e * z) + f * z * x ^ 3) * dt)

/-- The chen equations of the specification's catalog table. -/
def specChenStep (a b c x y z dt : ℚ) : ℚ × ℚ × ℚ :=
  (x + (a * (y - x)) * dt, y + ((c - a) * x - x * z + c * y) * dt, z + (x * y - b * z) * dt)

/-- The halvorsen equations of the specification's catalog table. -/
def specHalvorsenStep (a x y z dt : ℚ) : ℚ × ℚ × ℚ :=
  (x + (-(a * x) - 4 * y - 4 * z - y ^ 2) * dt, y + (-(a * y) - 4 * z - 4 * x - z ^ 2) * dt,
   z + (-(a * z) - 4 * x - 4 * y - x ^ 2) * dt)

/-- The sprott equations of the specification's catalog table. -/
def specSprottStep (a b x y z dt : ℚ) : ℚ × ℚ × ℚ :=
  (x + (y + a * x * y + x * z) * dt, y + (1 - b * x ^ 2 + y * z) * dt,
   z + (x - x ^ 2 - y ^ 2) * dt)

namespace JsNum

theorem fin_add (a b : ℚ) : fin a + fin b = fin (a + b) := rfl

theorem fin_mul (a b : ℚ) : fin a * fin b = fin (a * b) := rfl

theorem fin_neg (a : ℚ) : -(fin a) = fin (-a) := rfl

theorem fin_sub (a b : ℚ) : fin a - fin b = fin (a - b) := by
  show add (fin a) (neg (fin b)) = fin (a - b)
  simp [add, neg, sub_eq_add_neg]

theorem fin_div (a b : ℚ) (h : b ≠ 0) : fin a / fin b = fin (a / b) := by
  show div (fin a) (fin b) = fin (a / b)
  simp [div, h]

theorem ofNat_eq_fin (n : ℕ) [n.AtLeastTwo] :
    (OfNat.ofNat n : JsNum) = fin (OfNat.ofNat n) := rfl

theorem zero_eq_fin : (0 : JsNum) = fin 0 := rfl

theorem one_eq_fin : (1 : JsNum) = fin 1 := rfl

theorem isFinite_mul_fin {a : JsNum} (q : ℚ) (h : a.isFinite = true) :
    (a * fin q).isFinite = true := by
  cases a <;> simp_all [isFinite, fin_mul]

end JsNum

/-! ## General lemmas about the engine operations -/

theorem ParticleSystem.updateBuffers_trailPositions (s : ParticleSystem) :
    (s.updateBuffers).trailPositions = s.trailPositions := rfl

theorem ParticleSystem.updateBuffers_trailIndex (s : ParticleSystem) :
    (s.updateBuffers).trailIndex = s.trailIndex := rfl

theorem ParticleSystem.update_trailIndex (speed : ℚ) (s : ParticleSystem) :
    (ParticleSystem.update speed s).trailIndex =
      (s.trailIndex + s.trailLength - 1) % s.trailLength := rfl

theorem ParticleSystem.update_trailLength (speed : ℚ) (s : ParticleSystem) :
    (ParticleSystem.update speed s).trailLength = s.trailLength := rfl

theorem ParticleSystem.update_particleCount (speed : ℚ) (s : ParticleSystem) :
    (ParticleSystem.update speed s).particleCount = s.particleCount := rfl

/-- Arithmetic of the flat renderable-buffer index (i*L+t)*3+k. -/
theorem flatIndex_arith (i t k L : ℕ) (ht : t < L) (hk : k < 3) :
    ((i * L + t) * 3 + k) % 3 = k ∧ ((i * L + t) * 3 + k) / 3 = i * L + t ∧
    (i * L + t) / L = i ∧ (i * L + t) % L = t := by
  have hL : 0 < L := Nat.pos_of_ne_zero (by omega)
  refine ⟨by omega, by omega, ?_, ?_⟩
  · rw [Nat.add_comm, Nat.add_mul_div_right _ _ hL, Nat.div_eq_of_lt ht, Nat.zero_add]
  · rw [Nat.add_comm, Nat.add_mul_mod_self_right, Nat.mod_eq_of_lt ht]

theorem ParticleSystem.processParticle_apply (s : ParticleSystem) (dt : ℚ)
    (nextIndex i : ℕ) (st : (ℕ → ℕ → JsNum) × ℕ) (t j : ℕ) :
    (ParticleSystem.processParticle s dt nextIndex i st).1 t j =
      if t = nextIndex then
        if j = i * 3 then
          (if s.stepFinite dt i then (s.stepResult dt i).1.toFloat32
           else (JsNum.fin ((s.rng st.2 - 1/2) * 2 * s.currentAttractor.scale)).toFloat32)
        else if j = i * 3 + 1 then
          (if s.stepFinite dt i then (s.stepResult dt i).2.1.toFloat32
           else (JsNum.fin ((s.rng (st.2 + 1) - 1/2) * 2 * s.currentAttractor.scale)).toFloat32)
        else if j = i * 3 + 2 then
          (if s.stepFinite dt i then (s.stepResult dt i).2.2.toFloat32
           else (JsNum.fin ((s.rng (st.2 + 2) - 1/2) * 2 * s.currentAttractor.scale + 25)).toFloat32)
        else st.1 t j
      else st.1 t j := by
  rw [ParticleSystem.processParticle]
  split
  · next h =>
      have hg : s.stepFinite dt i := h
      simp only [if_pos hg, ParticleSystem.stepResult]
  · next h =>
      have hg : ¬ s.stepFinite dt i := h
      simp only [if_neg hg]

theorem ParticleSystem.processParticle_pos (s : ParticleSystem) (dt : ℚ)
    (nextIndex i : ℕ) (st : (ℕ → ℕ → JsNum) × ℕ) :
    (ParticleSystem.processParticle s dt nextIndex i st).2 =
      if s.stepFinite dt i then st.2 else st.2 + 3 := by
  rw [ParticleSystem.processParticle]
  split
  · next h =>
      have hg : s.stepFinite dt i := h
      simp only [if_pos hg, ParticleSystem.stepResult]
  · next h =>
      have hg : ¬ s.stepFinite dt i := h
      simp only [if_neg hg]

/-- Cells of ring slots other than the write slot are untouched by the
particle loop. -/
theorem ParticleSystem.updateParticles_slot_ne (s : ParticleSystem) (dt : ℚ) (nextIndex : ℕ)
    (m : ℕ) (st : (ℕ → ℕ → JsNum) × ℕ) (t j : ℕ) (h : t ≠ nextIndex) :
    (ParticleSystem.updateParticles s dt nextIndex m st).1 t j = st.1 t j := by
  induction m generalizing st with
  | zero => rfl
  | succ m ih =>
      show (ParticleSystem.processParticle s dt nextIndex m
        (ParticleSystem.updateParticles s dt nextIndex m st)).1 t j = st.1 t j
      rw [ParticleSystem.processParticle_apply, if_neg h]
      exact ih st

/-- Cells not belonging to any particle below m are untouched by the
particle loop. -/
theorem ParticleSystem.updateParticles_cell_ge (s : ParticleSystem) (dt : ℚ) (nextIndex : ℕ)
    (m : ℕ) (st : (ℕ → ℕ → JsNum) × ℕ) (t j : ℕ) (h : 3 * m ≤ j) :
    (ParticleSystem.updateParticles s dt nextIndex m st).1 t j = st.1 t j := by
  induction m generalizing st with
  | zero => rfl
  | succ m ih =>
      show (ParticleSystem.processParticle s dt nextIndex m
        (ParticleSystem.updateParticles s dt nextIndex m st)).1 t j = st.1 t j
      rw [ParticleSystem.processParticle_apply]
      have h0 : ¬ (j = m * 3) := by omega
      have h1 : ¬ (j = m * 3 + 1) := by omega
      have h2 : ¬ (j = m * 3 + 2) := by omega
      by_cases ht : t = nextIndex
      · rw [if_pos ht, if_neg h0, if_neg h1, if_neg h2]; exact ih st (by omega)
      · rw [if_neg ht]; exact ih st (by omega)

/-- In the final ring, the cells of particle i hold the value written by
particle i's own loop iteration. -/
theorem ParticleSystem.updateParticles_cell (s : ParticleSystem) (dt : ℚ) (nextIndex : ℕ)
    (m i c : ℕ) (st : (ℕ → ℕ → JsNum) × ℕ) (him : i < m) (hc : c < 3) :
    (ParticleSystem.updateParticles s dt nextIndex m st).1 nextIndex (i * 3 + c) =
      (ParticleSystem.processParticle s dt nextIndex i
        (ParticleSystem.updateParticles s dt nextIndex i st)).1 nextIndex (i * 3 + c) := by
  induction m with
  | zero => omega
  | succ m ih =>
      rcases Nat.lt_succ_iff_lt_or_eq.mp him with hlt | heq
      · show (ParticleSystem.processParticle s dt nextIndex m
          (ParticleSystem.updateParticles s dt nextIndex m st)).1 nextIndex (i * 3 + c) = _
        rw [ParticleSystem.processParticle_apply, if_pos rfl]
        have h0 : ¬ (i * 3 + c = m * 3) := by omega
        have h1 : ¬ (i * 3 + c = m * 3 + 1) := by omega
        have h2 : ¬ (i * 3 + c = m * 3 + 2) := by omega
        rw [if_neg h0, if_neg h1, if_neg h2]
        exact ih hlt
      · subst heq; rfl

/-- The repacked position written for particle i, trail slot t, component k. -/
theorem ParticleSystem.updateBuffers_positions (s : ParticleSystem) (i t k : ℕ)
    (hi : i < s.particleCount) (ht : t < s.trailLength) (hk : k < 3) :
    (s.updateBuffers).positions ((i * s.trailLength + t) * 3 + k) =
      s.trailPositions ((s.trailIndex + t) % s.trailLength) (i * 3 + k) *
        JsNum.fin s.currentAttractor.scale := by
  obtain ⟨e1, e2, e3, e4⟩ := flatIndex_arith i t k s.trailLength ht hk
  show (if s.trailLength ≠ 0 ∧ _ < s.particleCount then _ else _) = _
  rw [e1, e2, e3, e4, if_pos ⟨by omega, hi⟩]

/-- The repacked color written for particle i, trail slot t, component k:
the lerp from colorEnd towards colorStart with blend factor t / trailLength. -/
theorem ParticleSystem.updateBuffers_colors (s : ParticleSystem) (i t k : ℕ)
    (hi : i < s.particleCount) (ht : t < s.trailLength) (hk : k < 3) :
    (s.updateBuffers).colors ((i * s.trailLength + t) * 3 + k) =
      (if k = 0 then (Color.lerpColors s.colorEnd s.colorStart ((t : ℚ) / (s.trailLength : ℚ))).r
       else if k = 1 then (Color.lerpColors s.colorEnd s.colorStart ((t : ℚ) / (s.trailLength : ℚ))).g
       else (Color.lerpColors s.colorEnd s.colorStart ((t : ℚ) / (s.trailLength : ℚ))).b) := by
  obtain ⟨e1, e2, e3, e4⟩ := flatIndex_arith i t k s.trailLength ht hk
  show (if s.trailLength ≠ 0 ∧ _ < s.particleCount then _ else _) = _
  rw [e1, e2, e3, e4, if_pos ⟨by omega, hi⟩]

/-- The repacked size written for particle i, trail slot t. -/
theorem ParticleSystem.updateBuffers_sizes (s : ParticleSystem) (i t : ℕ)
    (hi : i < s.particleCount) (ht : t < s.trailLength) :
    (s.updateBuffers).sizes (i * s.trailLength + t) =
      (5/2) * (1 - ((t : ℚ) / (s.trailLength : ℚ)) * (7/10)) := by
  obtain ⟨_, _, e3, e4⟩ := flatIndex_arith i t 0 s.trailLength ht (by omega)
  show (if s.trailLength ≠ 0 ∧ _ < s.particleCount then _ else _) = _
  rw [e3, e4, if_pos ⟨by omega, hi⟩]

theorem ParticleSystem.initializeParticles_trailPositions (s : ParticleSystem) (t j : ℕ) :
    (s.initializeParticles).trailPositions t j =
      if t < s.trailLength ∧ j < 3 * s.particleCount then JsNum.fin (s.seedCoord j)
      else s.trailPositions t j := rfl

theorem ParticleSystem.initializeParticles_rngPos (s : ParticleSystem) :
    (s.initializeParticles).rngPos = s.rngPos + 3 * s.particleCount := rfl

theorem ParticleSystem.initializeParticles_trailIndex (s : ParticleSystem) :
    (s.initializeParticles).trailIndex = s.trailIndex := rfl

theorem ParticleSystem.update_trailPositions (speed : ℚ) (s : ParticleSystem) :
    (ParticleSystem.update speed s).trailPositions =
      (ParticleSystem.updateParticles s (s.currentAttractor.dt * speed)
        ((s.trailIndex + s.trailLength - 1) % s.trailLength) s.particleCount
        (s.trailPositions, s.rngPos)).1 := rfl

theorem ParticleSystem.update_positions (speed : ℚ) (s : ParticleSystem) :
    (ParticleSystem.update speed s).positions =
      (ParticleSystem.updateBuffers
        { s with
          trailPositions := (ParticleSystem.updateParticles s (s.currentAttractor.dt * speed)
            ((s.trailIndex + s.trailLength - 1) % s.trailLength) s.particleCount
            (s.trailPositions, s.rngPos)).1
          rngPos := (ParticleSystem.updateParticles s (s.currentAttractor.dt * speed)
            ((s.trailIndex + s.trailLength - 1) % s.trailLength) s.particleCount
            (s.trailPositions, s.rngPos)).2
          trailIndex := (s.trailIndex + s.trailLength - 1) % s.trailLength }).positions := rfl

theorem ParticleSystem.initializeParticles_eq (s : ParticleSystem) :
    s.initializeParticles = ParticleSystem.updateBuffers
      { s with
        trailPositions := fun t j =>
          if t < s.trailLength ∧ j < 3 * s.particleCount then JsNum.fin (s.seedCoord j)
          else s.trailPositions t j
        rngPos := s.rngPos + 3 * s.particleCount } := rfl

theorem ParticleSystem.update_eq (speed : ℚ) (s : ParticleSystem) :
    ParticleSystem.update speed s = ParticleSystem.updateBuffers
      { s with
        trailPositions := (ParticleSystem.updateParticles s (s.currentAttractor.dt * speed)
          ((s.trailIndex + s.trailLength - 1) % s.trailLength) s.particleCount
          (s.trailPositions, s.rngPos)).1
        rngPos := (ParticleSystem.updateParticles s (s.currentAttractor.dt * speed)
          ((s.trailIndex + s.trailLength - 1) % s.trailLength) s.particleCount
          (s.trailPositions, s.rngPos)).2
        trailIndex := (s.trailIndex + s.trailLength - 1) % s.trailLength } := rfl

theorem ParticleSystem.updateBuffers_positions_apply (s : ParticleSystem) (b : ℕ) :
    (s.updateBuffers).positions b =
      if s.trailLength ≠ 0 ∧ b / 3 / s.trailLength < s.particleCount then
        s.trailPositions ((s.trailIndex + b / 3 % s.trailLength) % s.trailLength)
          ((b / 3 / s.trailLength) * 3 + b % 3) * JsNum.fin s.currentAttractor.scale
      else s.positions b := rfl

theorem ParticleSystem.updateBuffers_colors_apply (s : ParticleSystem) (b : ℕ) :
    (s.updateBuffers).colors b =
      if s.trailLength ≠ 0 ∧ b / 3 / s.trailLength < s.particleCount then
        (if b % 3 = 0 then
          (Color.lerpColors s.colorEnd s.colorStart
            ((b / 3 % s.trailLength : ℕ) / (s.trailLength : ℚ))).r
         else if b % 3 = 1 then
          (Color.lerpColors s.colorEnd s.colorStart
            ((b / 3 % s.trailLength : ℕ) / (s.trailLength : ℚ))).g
         else
          (Color.lerpColors s.colorEnd s.colorStart
            ((b / 3 % s.trailLength : ℕ) / (s.trailLength : ℚ))).b)
      else s.colors b := rfl

theorem ParticleSystem.updateBuffers_sizes_apply (s : ParticleSystem) (b : ℕ) :
    (s.updateBuffers).sizes b =
      if s.trailLength ≠ 0 ∧ b / s.trailLength < s.particleCount then
        (5/2) * (1 - ((b % s.trailLength : ℕ) / (s.trailLength : ℚ)) * (7/10))
      else s.sizes b := rfl

/-- C6: setActiveField is observably a fresh construction: with the ambient
Math.random stream held fixed at the engine's current cursor, setAttractor
yields the same particle point count, the same parameter snapshot (a copy
of the new field's defaults), the same reseeded ring contents on every ring
slot of every particle, identical renderable position/color/size buffers,
and the same random-cursor advance as constructing a fresh engine with the
same sizes and colors on the new field. -/
theorem setAttractor_fresh_construct_c6 (s : ParticleSystem) (attractor : Attractor) :
    (ParticleSystem.setAttractor attractor s).getParticleCount =
      (ParticleSystem.construct attractor
        ⟨s.particleCount, s.trailLength, s.colorStart, s.colorEnd⟩ s.rng s.rngPos).getParticleCount ∧
    (ParticleSystem.setAttractor attractor s).currentParams = attractor.params ∧
    (ParticleSystem.construct attractor
      ⟨s.particleCount, s.trailLength, s.colorStart, s.colorEnd⟩ s.rng s.rngPos).currentParams =
        attractor.params ∧
    (ParticleSystem.setAttractor attractor s).rngPos =
      (ParticleSystem.construct attractor
        ⟨s.particleCount, s.trailLength, s.colorStart, s.colorEnd⟩ s.rng s.rngPos).rngPos ∧
    (∀ t j, t < s.trailLength → j < 3 * s.particleCount →
      (ParticleSystem.setAttractor attractor s).trailPositions t j =
        (ParticleSystem.construct attractor
          ⟨s.particleCount, s.trailLength, s.colorStart, s.colorEnd⟩ s.rng s.rngPos).trailPositions t j) ∧
    (∀ b, b < 3 * (s.particleCount * s.trailLength) →
      (ParticleSystem.setAttractor attractor s).positions b =
        (ParticleSystem.construct attractor
          ⟨s.particleCount, s.trailLength, s.colorStart, s.colorEnd⟩ s.rng s.rngPos).positions b) ∧
    (∀ b, b < 3 * (s.particleCount * s.trailLength) →
      (ParticleSystem.setAttractor attractor s).colors b =
        (ParticleSystem.construct attractor
          ⟨s.particleCount, s.trailLength, s.colorStart, s.colorEnd⟩ s.rng s.rngPos).colors b) ∧
    (∀ b, b < s.particleCount * s.trailLength →
      (ParticleSystem.setAttractor attractor s).sizes b =
        (ParticleSystem.construct attractor
          ⟨s.particleCount, s.trailLength, s.colorStart, s.colorEnd⟩ s.rng s.rngPos).sizes b) := by
  have hch : ∀ b : ℕ, b < 3 * (s.particleCount * s.trailLength) →
      (s.trailLength ≠ 0 ∧ b / 3 / s.trailLength < s.particleCount) := by
    intro b hb
    have hnL : 0 < s.particleCount * s.trailLength := by
      rcases Nat.eq_zero_or_pos (s.particleCount * s.trailLength) with h | h
      · omega
      · exact h
    have hL : 0 < s.trailLength := by
      rcases Nat.eq_zero_or_pos s.trailLength with h | h
      · rw [h, Nat.mul_zero] at hnL; omega
      · exact h
    exact ⟨by omega, (Nat.div_lt_iff_lt_mul hL).mpr (by omega)⟩
  refine ⟨rfl, rfl, rfl, rfl, ?_, ?_, ?_, ?_⟩
  · intro t j ht hj
    show (ParticleSystem.initializeParticles _).trailPositions t j =
      (ParticleSystem.initializeParticles _).trailPositions t j
    rw [ParticleSystem.initializeParticles_trailPositions,
      ParticleSystem.initializeParticles_trailPositions]
    rw [if_pos ⟨ht, hj⟩, if_pos ⟨ht, hj⟩]
    rfl
  · intro b hb
    obtain ⟨hne, hi⟩ := hch b hb
    have hL : 0 < s.trailLength := by omega
    have hcond : s.trailLength ≠ 0 ∧ b / 3 / s.trailLength < s.particleCount := ⟨hne, hi⟩
    have hc1 : (s.trailIndex + b / 3 % s.trailLength) % s.trailLength < s.trailLength ∧
        (b / 3 / s.trailLength) * 3 + b % 3 < 3 * s.particleCount :=
      ⟨Nat.mod_lt _ hL, by omega⟩
    have hc2 : (0 + b / 3 % s.trailLength) % s.trailLength < s.trailLength ∧
        (b / 3 / s.trailLength) * 3 + b % 3 < 3 * s.particleCount :=
      ⟨Nat.mod_lt _ hL, by omega⟩
    show (ParticleSystem.updateBuffers _).positions b = (ParticleSystem.updateBuffers _).positions b
    rw [ParticleSystem.updateBuffers_positions_apply, ParticleSystem.updateBuffers_positions_apply]
    rw [if_pos hcond, if_pos hcond]
    show (if (s.trailIndex + b / 3 % s.trailLength) % s.trailLength < s.trailLength ∧
        b / 3 / s.trailLength * 3 + b % 3 < 3 * s.particleCount then _ else _) * _ =
      (if (0 + b / 3 % s.trailLength) % s.trailLength < s.trailLength ∧
        b / 3 / s.trailLength * 3 + b % 3 < 3 * s.particleCount then _ else _) * _
    rw [if_pos hc1, if_pos hc2]
  · intro b hb
    obtain ⟨hne, hi⟩ := hch b hb
    have hcond : s.trailLength ≠ 0 ∧ b / 3 / s.trailLength < s.particleCount := ⟨hne, hi⟩
    show (ParticleSystem.updateBuffers _).colors b = (ParticleSystem.updateBuffers _).colors b
    rw [ParticleSystem.updateBuffers_colors_apply, ParticleSystem.updateBuffers_colors_apply]
    rw [if_pos hcond, if_pos hcond]
  · intro b hb
    have hnL : 0 < s.particleCount * s.trailLength := by
      rcases Nat.eq_zero_or_pos (s.particleCount * s.trailLength) with h | h
      · omega
      · exact h
    have hL : 0 < s.trailLength := by
      rcases Nat.eq_zero_or_pos s.trailLength with h | h
      · rw [h, Nat.mul_zero] at hnL; omega
      · exact h
    have hcond : s.trailLength ≠ 0 ∧ b / s.trailLength < s.particleCount :=
      ⟨by omega, (Nat.div_lt_iff_lt_mul hL).mpr hb⟩
    show (ParticleSystem.updateBuffers _).sizes b = (ParticleSystem.updateBuffers _).sizes b
    rw [ParticleSystem.updateBuffers_sizes_apply, ParticleSystem.updateBuffers_sizes_apply]
    rw [if_pos hcond, if_pos hcond]

/-- C2 (amended): after an advance call the renderable buffer lists, for
every particle i and trail slot t, at flat offset (i*trailLength+t)*3, the
ring position found by walking the ring from the new trailIndex, scaled by
the active field's displayScale; that walk is ordered newest-to-oldest:
slot t = 0 is the ring entry freshly written by this call (the
float32-narrowed step result when the raw step result was finite), and
slot t ≥ 1 holds exactly what the walk's slot t - 1 held before the call; the color written for walk slot t is the
linear interpolation starting at colorEnd for the newest slot (t = 0)
moving towards colorStart with blend factor t / trailLength. -/
theorem repack_after_update_c2 (s : ParticleSystem) (speed : ℚ) :
    (∀ i t k, i < s.particleCount → t < s.trailLength → k < 3 →
      (ParticleSystem.update speed s).positions ((i * s.trailLength + t) * 3 + k) =
        (ParticleSystem.update speed s).trailPositions
          (((ParticleSystem.update speed s).trailIndex + t) % s.trailLength) (i * 3 + k) *
          JsNum.fin s.currentAttractor.scale) ∧
    (∀ i t k, i < s.particleCount → t < s.trailLength → k < 3 →
      (ParticleSystem.update speed s).colors ((i * s.trailLength + t) * 3 + k) =
        (if k = 0 then
          (Color.lerpColors s.colorEnd s.colorStart ((t : ℚ) / (s.trailLength : ℚ))).r
         else if k = 1 then
          (Color.lerpColors s.colorEnd s.colorStart ((t : ℚ) / (s.trailLength : ℚ))).g
         else
          (Color.lerpColors s.colorEnd s.colorStart ((t : ℚ) / (s.trailLength : ℚ))).b)) ∧
    (∀ t j, 1 ≤ t → t < s.trailLength →
      (ParticleSystem.update speed s).trailPositions
          (((ParticleSystem.update speed s).trailIndex + t) % s.trailLength) j =
        s.trailPositions ((s.trailIndex + (t - 1)) % s.trailLength) j) ∧
    (∀ i, i < s.particleCount → s.stepFinite (s.currentAttractor.dt * speed) i →
      (ParticleSystem.update speed s).trailPositions
          (ParticleSystem.update speed s).trailIndex (i * 3) =
        (s.stepResult (s.currentAttractor.dt * speed) i).1.toFloat32 ∧
      (ParticleSystem.update speed s).trailPositions
          (ParticleSystem.update speed s).trailIndex (i * 3 + 1) =
        (s.stepResult (s.currentAttractor.dt * speed) i).2.1.toFloat32 ∧
      (ParticleSystem.update speed s).trailPositions
          (ParticleSystem.update speed s).trailIndex (i * 3 + 2) =
        (s.stepResult (s.currentAttractor.dt * speed) i).2.2.toFloat32) := by
  refine ⟨?_, ?_, ?_, ?_⟩
  · intro i t k hi ht hk
    rw [ParticleSystem.update_eq]
    exact ParticleSystem.updateBuffers_positions _ i t k hi ht hk
  · intro i t k hi ht hk
    rw [ParticleSystem.update_eq]
    exact ParticleSystem.updateBuffers_colors _ i t k hi ht hk
  · intro t j h1 ht
    have hL : 0 < s.trailLength := by omega
    have hnIlt : (s.trailIndex + s.trailLength - 1) % s.trailLength < s.trailLength :=
      Nat.mod_lt _ hL
    rw [ParticleSystem.update_trailIndex, ParticleSystem.update_trailPositions]
    have hne : ((s.trailIndex + s.trailLength - 1) % s.trailLength + t) % s.trailLength ≠
        (s.trailIndex + s.trailLength - 1) % s.trailLength := by
      intro hEq
      have hdm := Nat.div_add_mod ((s.trailIndex + s.trailLength - 1) % s.trailLength + t)
        s.trailLength
      rw [hEq] at hdm
      have ht' : t = s.trailLength *
          (((s.trailIndex + s.trailLength - 1) % s.trailLength + t) / s.trailLength) := by
        omega
      rcases Nat.eq_zero_or_pos
        (((s.trailIndex + s.trailLength - 1) % s.trailLength + t) / s.trailLength) with hq | hq
      · rw [hq, Nat.mul_zero] at ht'; omega
      · have : s.trailLength ≤ s.trailLength *
            (((s.trailIndex + s.trailLength - 1) % s.trailLength + t) / s.trailLength) :=
          Nat.le_mul_of_pos_right _ hq
        omega
    rw [ParticleSystem.updateParticles_slot_ne s _ _ _ _ _ _ hne]
    show s.trailPositions _ j = s.trailPositions _ j
    rw [Nat.mod_add_mod,
      (by omega : s.trailIndex + s.trailLength - 1 + t = s.trailIndex + (t - 1) + s.trailLength),
      Nat.add_mod_right]
  · intro i hi hg
    rw [ParticleSystem.update_trailIndex, ParticleSystem.update_trailPositions]
    have h0 := ParticleSystem.updateParticles_cell s (s.currentAttractor.dt * speed)
      ((s.trailIndex + s.trailLength - 1) % s.trailLength) s.particleCount i 0
      (s.trailPositions, s.rngPos) hi (by omega)
    have h1 := ParticleSystem.updateParticles_cell s (s.currentAttractor.dt * speed)
      ((s.trailIndex + s.trailLength - 1) % s.trailLength) s.particleCount i 1
      (s.trailPositions, s.rngPos) hi (by omega)
    have h2 := ParticleSystem.updateParticles_cell s (s.currentAttractor.dt * speed)
      ((s.trailIndex + s.trailLength - 1) % s.trailLength) s.particleCount i 2
      (s.trailPositions, s.rngPos) hi (by omega)
    rw [Nat.add_zero] at h0
    refine ⟨?_, ?_, ?_⟩
    · rw [h0, ParticleSystem.processParticle_apply, if_pos rfl, if_pos rfl, if_pos hg]
    · rw [h1, ParticleSystem.processParticle_apply, if_pos rfl,
        if_neg (by omega : ¬ (i * 3 + 1 = i * 3)), if_pos rfl, if_pos hg]
    · rw [h2, ParticleSystem.processParticle_apply, if_pos rfl,
        if_neg (by omega : ¬ (i * 3 + 2 = i * 3)),
        if_neg (by omega : ¬ (i * 3 + 2 = i * 3 + 1)), if_pos rfl, if_pos hg]

theorem JsNum.isFinite_fin (q : ℚ) : (JsNum.fin q).isFinite = true := rfl

theorem ParticleSystem.updateParticles_one (s : ParticleSystem) (dt : ℚ) (nextIndex : ℕ)
    (st : (ℕ → ℕ → JsNum) × ℕ) :
    ParticleSystem.updateParticles s dt nextIndex 1 st =
      ParticleSystem.processParticle s dt nextIndex 0 st := rfl

/-- C4: on the lorenz field with particleCount 1, trailLength 1, randomness
pinned so the seeded position is (1, 1, 26), a single advance(1) with the
default parameters uses effective dt = 0.005 and produces exactly the raw
position (1 + 0*0.005, 1 + 1*0.005, 26 + (1 - (8/3)*26)*0.005)
= (1, 201/200, 3079/120) ≈ (1.000, 1.005, 25.658). -/
theorem lorenz_single_advance_c4 :
    S4.trailPositions 0 0 = .fin 1 ∧ S4.trailPositions 0 1 = .fin 1 ∧
    S4.trailPositions 0 2 = .fin 26 ∧
    (ParticleSystem.update 1 S4).trailIndex = 0 ∧
    (ParticleSystem.update 1 S4).trailPositions 0 0 = .fin (1 + 0 * (5/1000)) ∧
    (ParticleSystem.update 1 S4).trailPositions 0 1 = .fin (1 + 1 * (5/1000)) ∧
    (ParticleSystem.update 1 S4).trailPositions 0 2 =
      .fin (26 + (1 - (8/3) * 26) * (5/1000)) ∧
    (1 + 0 * (5/1000) : ℚ) = 1 ∧ (1 + 1 * (5/1000) : ℚ) = 201/200 ∧
    (26 + (1 - (8/3) * 26) * (5/1000) : ℚ) = 3079/120 := by
  refine ⟨?_, ?_, ?_, ?_, ?_, ?_, ?_, by norm_num, by norm_num, by norm_num⟩ <;>
  · simp [S4, ParticleSystem.construct, ParticleSystem.initializeParticles,
      ParticleSystem.updateBuffers, ParticleSystem.update, ParticleSystem.updateParticles_one,
      ParticleSystem.processParticle, ParticleSystem.seedCoord, lorenz,
      AttractorParams.get, List.lookup,
      JsNum.fin_add, JsNum.fin_mul, JsNum.fin_sub, JsNum.fin_neg, JsNum.one_eq_fin,
      JsNum.zero_eq_fin, JsNum.ofNat_eq_fin, JsNum.isFinite_fin, JsNum.toFloat32]
    try norm_num

/-- C2 counterexample: on a concrete engine (one particle, trail length 2,
all pre-advance ring x-coordinates 0, step shifting x by 1, displayScale 1,
colorStart (1,1,1), colorEnd (0,0,0)), after one advance the buffer slot
t = 0 holds the freshly written (newest) position x = 1 scaled, not the
oldest raw position 0 scaled as the claim's oldest-to-newest ordering
demands, and the newest slot's color is colorEnd (0), not colorStart (1). -/
theorem repack_order_c2_counterexample :
    S2c.trailPositions 0 0 = .fin 0 ∧ S2c.trailPositions 1 0 = .fin 0 ∧
    (ParticleSystem.update 1 S2c).trailIndex = 1 ∧
    (ParticleSystem.update 1 S2c).trailPositions 1 0 = .fin 1 ∧
    (ParticleSystem.update 1 S2c).positions 0 = .fin 1 ∧
    (ParticleSystem.update 1 S2c).colors 0 = 0 ∧
    S2c.colorStart = ⟨1, 1, 1⟩ ∧ S2c.colorEnd = ⟨0, 0, 0⟩ ∧
    JsNum.fin 1 ≠ JsNum.fin 0 ∧ (0 : ℚ) ≠ 1 := by
  refine ⟨?_, ?_, ?_, ?_, ?_, ?_, rfl, rfl, by norm_num, by norm_num⟩ <;>
  · simp [S2c, ParticleSystem.construct, ParticleSystem.initializeParticles,
      ParticleSystem.updateBuffers, ParticleSystem.update, ParticleSystem.updateParticles_one,
      ParticleSystem.processParticle, ParticleSystem.seedCoord, shiftAttractor,
      Color.lerpColors,
      JsNum.fin_add, JsNum.fin_mul, JsNum.fin_sub, JsNum.fin_neg, JsNum.one_eq_fin,
      JsNum.zero_eq_fin, JsNum.ofNat_eq_fin, JsNum.isFinite_fin, JsNum.toFloat32]
    try norm_num

theorem repack_after_update_c2_witness :
    (ParticleSystem.update 1 S2c).positions ((0 * S2c.trailLength + 1) * 3 + 0) =
      (ParticleSystem.update 1 S2c).trailPositions
        (((ParticleSystem.update 1 S2c).trailIndex + 1) % S2c.trailLength) (0 * 3 + 0) *
        JsNum.fin S2c.currentAttractor.scale ∧
    (ParticleSystem.update 1 S2c).trailPositions
        (((ParticleSystem.update 1 S2c).trailIndex + 1) % S2c.trailLength) 0 =
      S2c.trailPositions ((S2c.trailIndex + (1 - 1)) % S2c.trailLength) 0 ∧
    (ParticleSystem.update 1 S2c).trailPositions
        (ParticleSystem.update 1 S2c).trailIndex (0 * 3) =
      (S2c.stepResult (S2c.currentAttractor.dt * 1) 0).1.toFloat32 :=
  ⟨(repack_after_update_c2 S2c 1).1 0 1 0 (by decide) (by decide) (by decide),
   (repack_after_update_c2 S2c 1).2.2.1 1 0 (by decide) (by decide),
   ((repack_after_update_c2 S2c 1).2.2.2 0 (by decide) (by decide)).1⟩

/-- C7 (amended): in every repack the per-point size for particle i and
walk slot t is 2.5 × (1 − 0.7 × t/trailLength); at the newest slot (t = 0)
this is the maximum 2.5, and at the oldest slot (t = trailLength − 1) it is
2.5 × (3/10 + 7/(10·trailLength)), which approaches but never equals 30%
of the maximum for finite trailLength. -/
theorem sizes_formula_c7 (s : ParticleSystem) :
    (∀ i t, i < s.particleCount → t < s.trailLength →
      (s.updateBuffers).sizes (i * s.trailLength + t) =
        (5/2) * (1 - ((t : ℚ) / (s.trailLength : ℚ)) * (7/10))) ∧
    (∀ i, i < s.particleCount → 0 < s.trailLength →
      (s.updateBuffers).sizes (i * s.trailLength) = 5/2) ∧
    (∀ i, i < s.particleCount → 0 < s.trailLength →
      (s.updateBuffers).sizes (i * s.trailLength + (s.trailLength - 1)) =
        (5/2) * (3/10 + (7/10) * (1 / (s.trailLength : ℚ)))) := by
  refine ⟨?_, ?_, ?_⟩
  · intro i t hi ht
    exact ParticleSystem.updateBuffers_sizes s i t hi ht
  · intro i hi hL
    have h := ParticleSystem.updateBuffers_sizes s i 0 hi hL
    rw [Nat.add_zero] at h
    rw [h]
    norm_num
  · intro i hi hL
    have h := ParticleSystem.updateBuffers_sizes s i (s.trailLength - 1) hi (by omega)
    rw [h]
    have hQ : (s.trailLength : ℚ) ≠ 0 := by
      exact_mod_cast Nat.pos_iff_ne_zero.mp hL
    have hcast : ((s.trailLength - 1 : ℕ) : ℚ) = (s.trailLength : ℚ) - 1 := by
      rw [Nat.cast_sub (by omega : 1 ≤ s.trailLength), Nat.cast_one]
    rw [hcast]
    field_simp
    ring

theorem sizes_formula_c7_witness :
    (S2c.updateBuffers).sizes (0 * S2c.trailLength + 1) =
      (5/2) * (1 - ((1 : ℕ) / (S2c.trailLength : ℚ)) * (7/10)) ∧
    (S2c.updateBuffers).sizes (0 * S2c.trailLength) = 5/2 ∧
    (S2c.updateBuffers).sizes (0 * S2c.trailLength + (S2c.trailLength - 1)) =
      (5/2) * (3/10 + (7/10) * (1 / (S2c.trailLength : ℚ))) :=
  ⟨(sizes_formula_c7 S2c).1 0 1 (by decide) (by decide),
   (sizes_formula_c7 S2c).2.1 0 (by decide) (by decide),
   (sizes_formula_c7 S2c).2.2 0 (by decide) (by decide)⟩

/-- C7 counterexample: on a freshly repacked engine with trailLength 2, the
oldest slot's size is 2.5 × (1 − 0.7 × 1/2) = 13/8, which is 65% of the
maximum, not the exactly-30% the claim states. -/
theorem sizes_not_thirty_percent_c7_counterexample :
    S2c.sizes 1 = 13/8 ∧ (13/8 : ℚ) ≠ (3/10) * (5/2) := by
  constructor
  · norm_num [S2c, ParticleSystem.construct, ParticleSystem.initializeParticles,
      ParticleSystem.updateBuffers]
  · norm_num

theorem ParticleSystem.foldl_update_trailIndex (speeds : List ℚ) (s : ParticleSystem)
    (h : s.trailIndex < s.trailLength) :
    (speeds.foldl (fun st sp => ParticleSystem.update sp st) s).trailIndex =
      (s.trailIndex + speeds.length * (s.trailLength - 1)) % s.trailLength ∧
    (speeds.foldl (fun st sp => ParticleSystem.update sp st) s).trailLength = s.trailLength := by
  induction speeds generalizing s with
  | nil =>
      refine ⟨?_, rfl⟩
      rw [List.length_nil, Nat.zero_mul, Nat.add_zero, List.foldl_nil, Nat.mod_eq_of_lt h]
  | cons a as ih =>
      have hL : 0 < s.trailLength := by omega
      have h1 : (ParticleSystem.update a s).trailIndex <
          (ParticleSystem.update a s).trailLength := by
        rw [ParticleSystem.update_trailIndex, ParticleSystem.update_trailLength]
        exact Nat.mod_lt _ hL
      obtain ⟨e1, e2⟩ := ih (ParticleSystem.update a s) h1
      rw [List.foldl_cons]
      constructor
      · rw [e1, ParticleSystem.update_trailIndex, ParticleSystem.update_trailLength,
          List.length_cons, Nat.succ_mul, Nat.mod_add_mod]
        generalize as.length * (s.trailLength - 1) = X
        congr 1
        omega
      · rw [e2, ParticleSystem.update_trailLength]

/-- C10 (amended): for every engine the shared ring index starts at 0 on
construction, is untouched by setAttractor, setParams and setColors, and is
mapped by every advance to (trailIndex + trailLength - 1) mod trailLength;
provided trailLength ≥ 1 it satisfies trailIndex < trailLength in every
reachable state (it is a natural number, so 0 ≤ trailIndex always), and
after exactly trailLength consecutive advance calls it returns to its prior
value.  (The bound fails only for the degenerate trailLength = 0
configurations that the unvalidated constructor admits.) -/
theorem trailIndex_invariant_c10 :
    (∀ (attractor : Attractor) (options : ParticleSystemOptions) (rng : ℕ → ℚ) (rngPos : ℕ),
      (ParticleSystem.construct attractor options rng rngPos).trailIndex = 0) ∧
    (∀ (s : ParticleSystem) (attractor : Attractor),
      (ParticleSystem.setAttractor attractor s).trailIndex = s.trailIndex) ∧
    (∀ (s : ParticleSystem) (params : AttractorParams),
      (ParticleSystem.setParams params s).trailIndex = s.trailIndex) ∧
    (∀ (s : ParticleSystem) (start finish : Color),
      (ParticleSystem.setColors start finish s).trailIndex = s.trailIndex) ∧
    (∀ (s : ParticleSystem) (speed : ℚ),
      (ParticleSystem.update speed s).trailIndex =
        (s.trailIndex + s.trailLength - 1) % s.trailLength) ∧
    (∀ s, Reachable s → 1 ≤ s.trailLength → s.trailIndex < s.trailLength) ∧
    (∀ (s : ParticleSystem) (speeds : List ℚ),
      s.trailIndex < s.trailLength → speeds.length = s.trailLength →
      (speeds.foldl (fun st sp => ParticleSystem.update sp st) s).trailIndex = s.trailIndex) := by
  refine ⟨fun _ _ _ _ => rfl, fun _ _ => rfl, fun _ _ => rfl, fun _ _ _ => rfl,
    fun _ _ => rfl, ?_, ?_⟩
  · intro s h
    induction h with
    | construct attractor options rng rngPos => intro h1; exact h1
    | update speed s _ ih =>
        intro h1
        rw [ParticleSystem.update_trailLength] at h1
        rw [ParticleSystem.update_trailIndex, ParticleSystem.update_trailLength]
        exact Nat.mod_lt _ (by omega)
    | setAttractor attractor s _ ih => exact ih
    | setParams params s _ ih => exact ih
    | setColors start finish s _ ih => exact ih
    | dispose s _ ih => exact ih
  · intro s speeds h hlen
    obtain ⟨e1, _⟩ := ParticleSystem.foldl_update_trailIndex speeds s h
    rw [e1, hlen, Nat.add_mul_mod_self_left, Nat.mod_eq_of_lt h]

/-- C10 counterexample: the constructor accepts trailLength = 0 (no
validation exists), and the resulting state has trailIndex = 0 and
trailLength = 0, so 0 ≤ trailIndex < trailLength fails in a reachable
state. -/
theorem trailIndex_invariant_c10_counterexample :
    (ParticleSystem.construct lorenz ⟨1, 0, ⟨0, 0, 0⟩, ⟨0, 0, 0⟩⟩ (fun _ => 0) 0).trailIndex = 0 ∧
    (ParticleSystem.construct lorenz ⟨1, 0, ⟨0, 0, 0⟩, ⟨0, 0, 0⟩⟩ (fun _ => 0) 0).trailLength = 0 ∧
    ¬ ((ParticleSystem.construct lorenz ⟨1, 0, ⟨0, 0, 0⟩, ⟨0, 0, 0⟩⟩
        (fun _ => 0) 0).trailIndex <
       (ParticleSystem.construct lorenz ⟨1, 0, ⟨0, 0, 0⟩, ⟨0, 0, 0⟩⟩ (fun _ => 0) 0).trailLength) :=
  ⟨rfl, rfl, by decide⟩

theorem trailIndex_invariant_c10_witness :
    S2c.trailIndex < S2c.trailLength ∧
    (([1, 1] : List ℚ).foldl (fun st sp => ParticleSystem.update sp st) S2c).trailIndex =
      S2c.trailIndex :=
  ⟨trailIndex_invariant_c10.2.2.2.2.2.1 S2c
      (Reachable.construct shiftAttractor ⟨1, 2, ⟨1, 1, 1⟩, ⟨0, 0, 0⟩⟩ (fun _ => 1/2) 0)
      (by decide),
   trailIndex_invariant_c10.2.2.2.2.2.2 S2c [1, 1] (by decide) (by decide)⟩

/-- C3 (amended): construction never fails and performs no size validation:
for every attractor, every particleCount and trailLength (zero included),
and any randomness, the constructor returns a fully built engine whose
point count is particleCount × trailLength; no InvalidConfigurationError
exists anywhere in the source. -/
theorem construct_never_fails_c3 (attractor : Attractor) (options : ParticleSystemOptions)
    (rng : ℕ → ℚ) (rngPos : ℕ) :
    ParticleSystem.constructE attractor options rng rngPos =
      Except.ok (ParticleSystem.construct attractor options rng rngPos) ∧
    (ParticleSystem.construct attractor options rng rngPos).getParticleCount =
      options.particleCount * options.trailLength ∧
    (ParticleSystem.construct attractor options rng rngPos).trailIndex = 0 :=
  ⟨rfl, rfl, rfl⟩

/-- C3 counterexample: the claim demands that particleCount = 0 makes
construction raise InvalidConfigurationError, but the code performs no
validation: construction with particleCount 0 (and with trailLength 0)
succeeds and returns an engine with zero renderable points. -/
theorem construct_zero_succeeds_c3_counterexample :
    ParticleSystem.constructE lorenz ⟨0, 1, ⟨0, 0, 0⟩, ⟨0, 0, 0⟩⟩ (fun _ => 0) 0 =
      Except.ok (ParticleSystem.construct lorenz ⟨0, 1, ⟨0, 0, 0⟩, ⟨0, 0, 0⟩⟩ (fun _ => 0) 0) ∧
    (ParticleSystem.construct lorenz ⟨0, 1, ⟨0, 0, 0⟩, ⟨0, 0, 0⟩⟩ (fun _ => 0) 0).getParticleCount
      = 0 ∧
    ParticleSystem.constructE lorenz ⟨5, 0, ⟨0, 0, 0⟩, ⟨0, 0, 0⟩⟩ (fun _ => 0) 0 =
      Except.ok (ParticleSystem.construct lorenz ⟨5, 0, ⟨0, 0, 0⟩, ⟨0, 0, 0⟩⟩ (fun _ => 0) 0) :=
  ⟨rfl, rfl, rfl⟩

/-- C8 (amended): dispose only releases the render-library geometry and
material handles; the engine records no disposed flag, so every subsequent
operation behaves exactly as it would without the dispose call, and no
UseAfterDisposeError exists anywhere in the source. -/
theorem dispose_no_guard_c8 (s : ParticleSystem) (speed : ℚ) (attractor : Attractor)
    (params : AttractorParams) (start finish : Color) :
    ParticleSystem.update speed (ParticleSystem.dispose s) = ParticleSystem.update speed s ∧
    ParticleSystem.setAttractor attractor (ParticleSystem.dispose s) =
      ParticleSystem.setAttractor attractor s ∧
    ParticleSystem.setParams params (ParticleSystem.dispose s) =
      ParticleSystem.setParams params s ∧
    ParticleSystem.setColors start finish (ParticleSystem.dispose s) =
      ParticleSystem.setColors start finish s ∧
    ParticleSystem.getParticleCount (ParticleSystem.dispose s) =
      ParticleSystem.getParticleCount s ∧
    ParticleSystem.dispose (ParticleSystem.dispose s) = ParticleSystem.dispose s :=
  ⟨rfl, rfl, rfl, rfl, rfl, rfl⟩

/-- C8 counterexample: after dispose on a concrete engine every subsequent
operation still succeeds normally instead of failing with
UseAfterDisposeError: particlePointCount returns 4, advance and
setActiveField return the ordinary updated engine. -/
theorem dispose_then_ops_succeed_c8_counterexample :
    ParticleSystem.getParticleCountE (ParticleSystem.dispose SD) = Except.ok 4 ∧
    ParticleSystem.updateE 1 (ParticleSystem.dispose SD) =
      Except.ok (ParticleSystem.update 1 SD) ∧
    ParticleSystem.setAttractorE rossler (ParticleSystem.dispose SD) =
      Except.ok (ParticleSystem.setAttractor rossler SD) :=
  ⟨rfl, rfl, rfl⟩

/-- C9 (amended): the property access returns the descriptor for each of
the eight known identifiers, with exact matching only (no case
normalization, no partial matches); an identifier outside the fixed set
yields nothing (JavaScript undefined, the lookup miss the specification
surfaces as UnknownFieldError) unless it names one of the members every
object inherits from Object.prototype, in which case the access returns
that inherited value, which is defined but is not a Field Descriptor. -/
theorem catalog_get_c9 (sine : ℚ → ℚ) :
    getAttractor sine "lorenz" = .descriptor lorenz ∧
    getAttractor sine "thomas" = .descriptor (thomas sine) ∧
    getAttractor sine "dadras" = .descriptor dadras ∧
    getAttractor sine "rossler" = .descriptor rossler ∧
    getAttractor sine "aizawa" = .descriptor aizawa ∧
    getAttractor sine "chen" = .descriptor chen ∧
    getAttractor sine "halvorsen" = .descriptor halvorsen ∧
    getAttractor sine "sprott" = .descriptor sprott ∧
    (∀ key : String,
      key ∉ (["lorenz", "thomas", "dadras", "rossler", "aizawa", "chen",
        "halvorsen", "sprott"] : List String) →
      key ∉ objectPrototypeKeys →
      getAttractor sine key = .undef) ∧
    (∀ key : String,
      key ∉ (["lorenz", "thomas", "dadras", "rossler", "aizawa", "chen",
        "halvorsen", "sprott"] : List String) →
      key ∈ objectPrototypeKeys →
      getAttractor sine key = .inherited key ∧
      (∀ a : Attractor, getAttractor sine key ≠ .descriptor a) ∧
      getAttractor sine key ≠ .undef) := by
  have core : ∀ key : String,
      key ∉ (["lorenz", "thomas", "dadras", "rossler", "aizawa", "chen",
        "halvorsen", "sprott"] : List String) →
      List.lookup key (attractors sine) = none := by
    intro key h
    simp only [List.mem_cons, List.not_mem_nil, or_false, not_or] at h
    obtain ⟨h1, h2, h3, h4, h5, h6, h7, h8⟩ := h
    have e1 : (key == "lorenz") = false := beq_eq_false_iff_ne.mpr h1
    have e2 : (key == "thomas") = false := beq_eq_false_iff_ne.mpr h2
    have e3 : (key == "dadras") = false := beq_eq_false_iff_ne.mpr h3
    have e4 : (key == "rossler") = false := beq_eq_false_iff_ne.mpr h4
    have e5 : (key == "aizawa") = false := beq_eq_false_iff_ne.mpr h5
    have e6 : (key == "chen") = false := beq_eq_false_iff_ne.mpr h6
    have e7 : (key == "halvorsen") = false := beq_eq_false_iff_ne.mpr h7
    have e8 : (key == "sprott") = false := beq_eq_false_iff_ne.mpr h8
    simp [attractors, List.lookup, e1, e2, e3, e4, e5, e6, e7, e8]
  refine ⟨rfl, rfl, rfl, rfl, rfl, rfl, rfl, rfl, ?_, ?_⟩
  · intro key h hp
    rw [getAttractor, core key h]
    simp [hp]
  · intro key h hp
    rw [getAttractor, core key h]
    simp [hp]

theorem catalog_get_c9_witness :
    getAttractor sineZero "Lorenz" = .undef ∧ getAttractor sineZero "lor" = .undef ∧
    getAttractor sineZero "toString" = .inherited "toString" :=
  ⟨(catalog_get_c9 sineZero).2.2.2.2.2.2.2.2.1 "Lorenz" (by decide) (by decide),
   (catalog_get_c9 sineZero).2.2.2.2.2.2.2.2.1 "lor" (by decide) (by decide),
   ((catalog_get_c9 sineZero).2.2.2.2.2.2.2.2.2 "toString" (by decide) (by decide)).1⟩

/-- C9 counterexample: the claim demands that every identifier outside the
fixed set fails the lookup, but the attractors object inherits
Object.prototype, so the access attractors["toString"] returns the
inherited toString function: a defined value that is neither a Field
Descriptor nor a lookup miss. -/
theorem catalog_get_proto_c9_counterexample :
    getAttractor sineZero "toString" = .inherited "toString" ∧
    "toString" ∉ (["lorenz", "thomas", "dadras", "rossler", "aizawa", "chen",
      "halvorsen", "sprott"] : List String) ∧
    (∀ a : Attractor, PropValue.inherited "toString" ≠ PropValue.descriptor a) ∧
    PropValue.inherited "toString" ≠ PropValue.undef := by
  refine ⟨rfl, by decide, fun a => by simp, by simp⟩

theorem JsNum.fin_div_three (a : ℚ) : JsNum.fin a / JsNum.fin 3 = JsNum.fin (a / 3) :=
  JsNum.fin_div a 3 (by norm_num)

theorem jsSin_fin (sine : ℚ → ℚ) (q : ℚ) : jsSin sine (JsNum.fin q) = .fin (sine q) := rfl

/-- C5: each of the eight catalog entries carries exactly the default
parameter values, timeStep and displayScale of the specification's catalog
table, and on finite inputs its step function is exactly the explicit
Euler step of that entry's differential equations. -/
theorem catalog_matches_table_c5 (sine : ℚ → ℚ) :
    (lorenz.params.get "sigma" = .fin 10 ∧ lorenz.params.get "rho" = .fin 28 ∧
     lorenz.params.get "beta" = .fin (8/3) ∧ lorenz.dt = 5/1000 ∧ lorenz.scale = 3/2 ∧
     ∀ sigma rho beta x y z dt : ℚ,
       lorenz.step (.fin x) (.fin y) (.fin z)
         [("sigma", .fin sigma), ("rho", .fin rho), ("beta", .fin beta)] (.fin dt) =
       (.fin (specLorenzStep sigma rho beta x y z dt).1,
        .fin (specLorenzStep sigma rho beta x y z dt).2.1,
        .fin (specLorenzStep sigma rho beta x y z dt).2.2)) ∧
    ((thomas sine).params.get "b" = .fin (208186/1000000) ∧ (thomas sine).dt = 4/100 ∧
     (thomas sine).scale = 8 ∧
     ∀ b x y z dt : ℚ,
       (thomas sine).step (.fin x) (.fin y) (.fin z) [("b", .fin b)] (.fin dt) =
       (.fin (specThomasStep sine b x y z dt).1,
        .fin (specThomasStep sine b x y z dt).2.1,
        .fin (specThomasStep sine b x y z dt).2.2)) ∧
    (dadras.params.get "a" = .fin 3 ∧ dadras.params.get "b" = .fin (27/10) ∧
     dadras.params.get "c" = .fin (17/10) ∧ dadras.params.get "d" = .fin 2 ∧
     dadras.params.get "e" = .fin 9 ∧ dadras.dt = 4/1000 ∧ dadras.scale = 2 ∧
     ∀ a b c d e x y z dt : ℚ,
       dadras.step (.fin x) (.fin y) (.fin z)
         [("a", .fin a), ("b", .fin b), ("c", .fin c), ("d", .fin d), ("e", .fin e)] (.fin dt) =
       (.fin (specDadrasStep a b c d e x y z dt).1,
        .fin (specDadrasStep a b c d e x y z dt).2.1,
        .fin (specDadrasStep a b c d e x y z dt).2.2)) ∧
    (rossler.params.get "a" = .fin (2/10) ∧ rossler.params.get "b" = .fin (2/10) ∧
     rossler.params.get "c" = .fin (57/10) ∧ rossler.dt = 1/100 ∧ rossler.scale = 5/2 ∧
     ∀ a b c x y z dt : ℚ,
       rossler.step (.fin x) (.fin y) (.fin z)
         [("a", .fin a), ("b", .fin b), ("c", .fin c)] (.fin dt) =
       (.fin (specRosslerStep a b c x y z dt).1,
        .fin (specRosslerStep a b c x y z dt).2.1,
        .fin (specRosslerStep a b c x y z dt).2.2)) ∧
    (aizawa.params.get "a" = .fin (95/100) ∧ aizawa.params.get "b" = .fin (7/10) ∧
     aizawa.params.get "c" = .fin (6/10) ∧ aizawa.params.get "d" = .fin (35/10) ∧
     aizawa.params.get "e" = .fin (25/100) ∧ aizawa.params.get "f" = .fin (1/10) ∧
     aizawa.dt = 5/1000 ∧ aizawa.scale = 10 ∧
     ∀ a b c d e f x y z dt : ℚ,
       aizawa.step (.fin x) (.fin y) (.fin z)
         [("a", .fin a), ("b", .fin b), ("c", .fin c), ("d", .fin d), ("e", .fin e),
          ("f", .fin f)] (.fin dt) =
       (.fin (specAizawaStep a b c d e f x y z dt).1,
        .fin (specAizawaStep a b c d e f x y z dt).2.1,
        .fin (specAizawaStep a b c d e f x y z dt).2.2)) ∧
    (chen.params.get "a" = .fin 40 ∧ chen.params.get "b" = .fin 3 ∧
     chen.params.get "c" = .fin 28 ∧ chen.dt = 2/1000 ∧ chen.scale = 6/5 ∧
     ∀ a b c x y z dt : ℚ,
       chen.step (.fin x) (.fin y) (.fin z)
         [("a", .fin a), ("b", .fin b), ("c", .fin c)] (.fin dt) =
       (.fin (specChenStep a b c x y z dt).1,
        .fin (specChenStep a b c x y z dt).2.1,
        .fin (specChenStep a b c x y z dt).2.2)) ∧
    (halvorsen.params.get "a" = .fin (189/100) ∧ halvorsen.dt = 5/1000 ∧
     halvorsen.scale = 4 ∧
     ∀ a x y z dt : ℚ,
       halvorsen.step (.fin x) (.fin y) (.fin z) [("a", .fin a)] (.fin dt) =
       (.fin (specHalvorsenStep a x y z dt).1,
        .fin (specHalvorsenStep a x y z dt).2.1,
        .fin (specHalvorsenStep a x y z dt).2.2)) ∧
    (sprott.params.get "a" = .fin (207/100) ∧ sprott.params.get "b" = .fin (179/100) ∧
     sprott.dt = 2/100 ∧ sprott.scale = 5 ∧
     ∀ a b x y z dt : ℚ,
       sprott.step (.fin x) (.fin y) (.fin z) [("a", .fin a), ("b", .fin b)] (.fin dt) =
       (.fin (specSprottStep a b x y z dt).1,
        .fin (specSprottStep a b x y z dt).2.1,
        .fin (specSprottStep a b x y z dt).2.2)) := by
  refine ⟨⟨rfl, rfl, rfl, rfl, rfl, ?_⟩, ⟨rfl, rfl, rfl, ?_⟩,
    ⟨rfl, rfl, rfl, rfl, rfl, rfl, rfl, ?_⟩, ⟨rfl, rfl, rfl, rfl, rfl, ?_⟩,
    ⟨rfl, rfl, rfl, rfl, rfl, rfl, rfl, rfl, ?_⟩, ⟨rfl, rfl, rfl, rfl, rfl, ?_⟩,
    ⟨rfl, rfl, rfl, ?_⟩, ⟨rfl, rfl, rfl, rfl, ?_⟩⟩
  · intro sigma rho beta x y z dt
    simp only [lorenz, specLorenzStep, AttractorParams.get, List.lookup, String.reduceBEq,
      JsNum.ofNat_eq_fin, JsNum.fin_div_three, JsNum.fin_add, JsNum.fin_mul, JsNum.fin_sub,
      JsNum.fin_neg, JsNum.one_eq_fin, JsNum.zero_eq_fin, jsSin_fin] <;>
    exact Prod.ext (congrArg JsNum.fin (by ring))
      (Prod.ext (congrArg JsNum.fin (by ring)) (congrArg JsNum.fin (by ring)))
  · intro b x y z dt
    simp only [thomas, specThomasStep, AttractorParams.get, List.lookup, String.reduceBEq,
      JsNum.ofNat_eq_fin, JsNum.fin_div_three, JsNum.fin_add, JsNum.fin_mul, JsNum.fin_sub,
      JsNum.fin_neg, JsNum.one_eq_fin, JsNum.zero_eq_fin, jsSin_fin] <;>
    exact Prod.ext (congrArg JsNum.fin (by ring))
      (Prod.ext (congrArg JsNum.fin (by ring)) (congrArg JsNum.fin (by ring)))
  · intro a b c d e x y z dt
    simp only [dadras, specDadrasStep, AttractorParams.get, List.lookup, String.reduceBEq,
      JsNum.ofNat_eq_fin, JsNum.fin_div_three, JsNum.fin_add, JsNum.fin_mul, JsNum.fin_sub,
      JsNum.fin_neg, JsNum.one_eq_fin, JsNum.zero_eq_fin, jsSin_fin] <;>
    exact Prod.ext (congrArg JsNum.fin (by ring))
      (Prod.ext (congrArg JsNum.fin (by ring)) (congrArg JsNum.fin (by ring)))
  · intro a b c x y z dt
    simp only [rossler, specRosslerStep, AttractorParams.get, List.lookup, String.reduceBEq,
      JsNum.ofNat_eq_fin, JsNum.fin_div_three, JsNum.fin_add, JsNum.fin_mul, JsNum.fin_sub,
      JsNum.fin_neg, JsNum.one_eq_fin, JsNum.zero_eq_fin, jsSin_fin] <;>
    exact Prod.ext (congrArg JsNum.fin (by ring))
      (Prod.ext (congrArg JsNum.fin (by ring)) (congrArg JsNum.fin (by ring)))
  · intro a b c d e f x y z dt
    simp only [aizawa, specAizawaStep, AttractorParams.get, List.lookup, String.reduceBEq,
      JsNum.ofNat_eq_fin, JsNum.fin_div_three, JsNum.fin_add, JsNum.fin_mul, JsNum.fin_sub,
      JsNum.fin_neg, JsNum.one_eq_fin, JsNum.zero_eq_fin, jsSin_fin] <;>
    exact Prod.ext (congrArg JsNum.fin (by ring))
      (Prod.ext (congrArg JsNum.fin (by ring)) (congrArg JsNum.fin (by ring)))
  · intro a b c x y z dt
    simp only [chen, specChenStep, AttractorParams.get, List.lookup, String.reduceBEq,
      JsNum.ofNat_eq_fin, JsNum.fin_div_three, JsNum.fin_add, JsNum.fin_mul, JsNum.fin_sub,
      JsNum.fin_neg, JsNum.one_eq_fin, JsNum.zero_eq_fin, jsSin_fin] <;>
    exact Prod.ext (congrArg JsNum.fin (by ring))
      (Prod.ext (congrArg JsNum.fin (by ring)) (congrArg JsNum.fin (by ring)))
  · intro a x y z dt
    simp only [halvorsen, specHalvorsenStep, AttractorParams.get, List.lookup, String.reduceBEq,
      JsNum.ofNat_eq_fin, JsNum.fin_div_three, JsNum.fin_add, JsNum.fin_mul, JsNum.fin_sub,
      JsNum.fin_neg, JsNum.one_eq_fin, JsNum.zero_eq_fin, jsSin_fin] <;>
    exact Prod.ext (congrArg JsNum.fin (by ring))
      (Prod.ext (congrArg JsNum.fin (by ring)) (congrArg JsNum.fin (by ring)))
  · intro a b x y z dt
    simp only [sprott, specSprottStep, AttractorParams.get, List.lookup, String.reduceBEq,
      JsNum.ofNat_eq_fin, JsNum.fin_div_three, JsNum.fin_add, JsNum.fin_mul, JsNum.fin_sub,
      JsNum.fin_neg, JsNum.one_eq_fin, JsNum.zero_eq_fin, jsSin_fin] <;>
    exact Prod.ext (congrArg JsNum.fin (by ring))
      (Prod.ext (congrArg JsNum.fin (by ring)) (congrArg JsNum.fin (by ring)))

theorem setAttractor_fresh_construct_c6_witness :
    (ParticleSystem.setAttractor rossler S4).getParticleCount =
      (ParticleSystem.construct rossler
        ⟨S4.particleCount, S4.trailLength, S4.colorStart, S4.colorEnd⟩
        S4.rng S4.rngPos).getParticleCount ∧
    (ParticleSystem.setAttractor rossler S4).currentParams = rossler.params ∧
    (ParticleSystem.setAttractor rossler S4).trailPositions 0 0 =
      (ParticleSystem.construct rossler
        ⟨S4.particleCount, S4.trailLength, S4.colorStart, S4.colorEnd⟩
        S4.rng S4.rngPos).trailPositions 0 0 ∧
    (ParticleSystem.setAttractor rossler S4).positions 0 =
      (ParticleSystem.construct rossler
        ⟨S4.particleCount, S4.trailLength, S4.colorStart, S4.colorEnd⟩
        S4.rng S4.rngPos).positions 0 ∧
    (ParticleSystem.setAttractor rossler S4).colors 0 =
      (ParticleSystem.construct rossler
        ⟨S4.particleCount, S4.trailLength, S4.colorStart, S4.colorEnd⟩
        S4.rng S4.rngPos).colors 0 ∧
    (ParticleSystem.setAttractor rossler S4).sizes 0 =
      (ParticleSystem.construct rossler
        ⟨S4.particleCount, S4.trailLength, S4.colorStart, S4.colorEnd⟩
        S4.rng S4.rngPos).sizes 0 :=
  ⟨(setAttractor_fresh_construct_c6 S4 rossler).1,
   (setAttractor_fresh_construct_c6 S4 rossler).2.1,
   (setAttractor_fresh_construct_c6 S4 rossler).2.2.2.2.1 0 0 (by decide) (by decide),
   (setAttractor_fresh_construct_c6 S4 rossler).2.2.2.2.2.1 0 (by decide),
   (setAttractor_fresh_construct_c6 S4 rossler).2.2.2.2.2.2.1 0 (by decide),
   (setAttractor_fresh_construct_c6 S4 rossler).2.2.2.2.2.2.2 0 (by decide)⟩

theorem JsNum.inf_mul_fin (q : ℚ) (h : 0 < q) : JsNum.inf * JsNum.fin q = JsNum.inf := by
  show JsNum.mul _ _ = _
  simp [JsNum.mul, h]

/-- C1 (code bug): the isFinite guard of ParticleSystem.update tests the
raw double-precision step result, but the store lands in a Float32Array.
On the lorenz field seeded at (1, 1, 26), with the parameter snapshot
{sigma 10, rho 1e300, beta 8/3} that setParams accepts unvalidated, one
advance(1) computes the finite raw result y' = 1 + (1·(1e300 − 26) − 1)·0.005,
which passes the guard and yet is stored as Infinity: Infinity sits in the
ring slot and is repacked as Infinity × displayScale into the renderable
position buffer, violating the claimed invariant that non-finite values
never enter the render buffer. -/
theorem float32_overflow_c1 :
    S4.trailPositions 0 0 = .fin 1 ∧ S4.trailPositions 0 1 = .fin 1 ∧
    S4.trailPositions 0 2 = .fin 26 ∧
    (ParticleSystem.setParams overflowParams S4).stepFinite
      ((ParticleSystem.setParams overflowParams S4).currentAttractor.dt * 1) 0 ∧
    (ParticleSystem.update 1 (ParticleSystem.setParams overflowParams S4)).trailPositions 0 1 =
      JsNum.inf ∧
    (ParticleSystem.update 1 (ParticleSystem.setParams overflowParams S4)).positions 1 =
      JsNum.inf ∧
    JsNum.inf.isFinite = false := by
  refine ⟨?_, ?_, ?_, ?_, ?_, ?_, rfl⟩ <;>
  · simp [S4, overflowParams, ParticleSystem.construct, ParticleSystem.initializeParticles,
      ParticleSystem.updateBuffers, ParticleSystem.update, ParticleSystem.updateParticles_one,
      ParticleSystem.processParticle, ParticleSystem.stepFinite, ParticleSystem.stepResult,
      ParticleSystem.setParams, ParticleSystem.seedCoord, lorenz,
      AttractorParams.get, List.lookup,
      JsNum.fin_add, JsNum.fin_mul, JsNum.fin_sub, JsNum.fin_neg, JsNum.one_eq_fin,
      JsNum.zero_eq_fin, JsNum.ofNat_eq_fin, JsNum.isFinite_fin, JsNum.toFloat32]
    try norm_num [JsNum.inf_mul_fin]
